import Mathlib

/-!
Verification of the NEAR key-value smart contract (`src/lib.rs`).

The contract is a struct `KeyValue { pairs: UnorderedMap<String, String> }`
with three public methods:

  * `create_update(&mut self, k, v)` — logs "created or update", then
    `self.pairs.insert(&k, &v)`;
  * `read(&self, k) -> Option<String>` — logs "read", then returns
    `self.pairs.get(&k)`;
  * `delete(&mut self, k)` — logs "delete", then `self.pairs.remove(&k)`.

`Default for KeyValue` builds `UnorderedMap::new(b"r".to_vec())`, an empty
map under the storage namespace byte `r` (0x72 = 114).
-/

/-- Modelled from the spec: `near_sdk::collections::UnorderedMap` is library
code not present under `src/`.  Per the spec's Persistent Map contract (§3,
§4.2) it is logically a mapping from text keys to text values, physically a
set of entries under a fixed namespace byte sequence.  We carry the entries
as an association list together with the namespace bytes given to
`UnorderedMap::new`. -/
structure UnorderedMap where
  keyNamespace : List Nat
  entries : List (String × String)
  deriving Repr, DecidableEq

/-- Modelled from the spec: `UnorderedMap::new(prefix)` constructs an empty
map under the given namespace byte sequence. -/
def UnorderedMap.new (ns : List Nat) : UnorderedMap :=
  { keyNamespace := ns, entries := [] }

/-- Modelled from the spec: `insert(key, value)` "unconditionally associates
`value` with `key`, overwriting any prior value" (§4.2).  Any prior entry
for `key` is dropped and the new association recorded. -/
def UnorderedMap.insert (m : UnorderedMap) (k v : String) : UnorderedMap :=
  { m with entries := m.entries.filter (fun e => e.1 != k) ++ [(k, v)] }

/-- Modelled from the spec: `get(key) -> value | absent` "returns the
currently associated value, or an explicit absent result if `key` was never
inserted or was removed since its last insert" (§4.2).  Keys are matched
byte-exactly, with no normalization. -/
def UnorderedMap.get (m : UnorderedMap) (k : String) : Option String :=
  (m.entries.find? (fun e => e.1 == k)).map Prod.snd

/-- Modelled from the spec: `remove(key)` "deletes the association for `key`
if present; a no-op (not an error) if `key` is absent" (§4.2). -/
def UnorderedMap.remove (m : UnorderedMap) (k : String) : UnorderedMap :=
  { m with entries := m.entries.filter (fun e => e.1 != k) }

/-- The contract state: `struct KeyValue { pairs: UnorderedMap<String, String> }`. -/
structure KeyValue where
  pairs : UnorderedMap
  deriving Repr, DecidableEq

/-- `impl Default for KeyValue`: `Self { pairs: UnorderedMap::new(b"r".to_vec()) }`.
The byte string `b"r"` is the single byte 114. -/
def KeyValue.default : KeyValue :=
  { pairs := UnorderedMap.new [114] }

/-- `pub fn create_update(&mut self, k: String, v: String)`:
`env::log(b"created or update"); self.pairs.insert(&k, &v);`.
The mutated state is returned together with the emitted log line. -/
def KeyValue.create_update (self : KeyValue) (k v : String) :
    KeyValue × List String :=
  ({ self with pairs := self.pairs.insert k v }, ["created or update"])

/-- `pub fn read(&self, k: String) -> Option<String>`:
`env::log(b"read"); return self.pairs.get(&k);`.
The receiver is an immutable borrow, so no state is returned — only the
result and the emitted log line. -/
def KeyValue.read (self : KeyValue) (k : String) :
    Option String × List String :=
  (self.pairs.get k, ["read"])

/-- `pub fn delete(&mut self, k: String)`:
`env::log(b"delete"); self.pairs.remove(&k);`.
The mutated state is returned together with the emitted log line. -/
def KeyValue.delete (self : KeyValue) (k : String) : KeyValue × List String :=
  ({ self with pairs := self.pairs.remove k }, ["delete"])

/-- One external call dispatched to the contract. -/
inductive Call where
  | createUpdate : String → String → Call
  | delete : String → Call
  | readKey : String → Call
  deriving Repr, DecidableEq

/-- The effect of one call on the persisted contract state.  Mutating calls
persist the updated state; `read` takes `&self` and is not persisted, so the
state after a read call is the state before it (spec §3 lifecycle, §4.4). -/
def stepCall (kv : KeyValue) : Call → KeyValue
  | Call.createUpdate k v => (kv.create_update k v).1
  | Call.delete k => (kv.delete k).1
  | Call.readKey _ => kv

/-- The persisted state after a sequence of calls, starting from the
default-initialized state (fresh contract, no prior root record). -/
def runCalls (calls : List Call) : KeyValue :=
  calls.foldl stepCall KeyValue.default

/-- The effect of one call on the value observable at key `k`. -/
def readEffect (k : String) (acc : Option String) : Call → Option String
  | Call.createUpdate k' v => if k' == k then some v else acc
  | Call.delete k' => if k' == k then none else acc
  | Call.readKey _ => acc

/-- The effect of one call on whether key `k` is live. -/
def liveEffect (k : String) (acc : Bool) : Call → Bool
  | Call.createUpdate k' _ => if k' == k then true else acc
  | Call.delete k' => if k' == k then false else acc
  | Call.readKey _ => acc

/-- Whether key `k` is live after a sequence of calls: some `create_update`
of `k` occurred and no `delete` of `k` occurred after it. -/
def keyLive (calls : List Call) (k : String) : Bool :=
  calls.foldl (liveEffect k) false

/-! ### Association-list lemmas -/

theorem find?_filter_out (l : List (String × String)) (k : String) :
    (l.filter (fun e => e.1 != k)).find? (fun e => e.1 == k) = none := by
  induction l with
  | nil => rfl
  | cons a t ih =>
    by_cases h : a.1 = k
    · simp [List.filter_cons, h, ih]
    · simp [List.filter_cons, h, List.find?_cons, ih]

theorem find?_filter_other (l : List (String × String)) (k1 k2 : String)
    (h : k2 ≠ k1) :
    (l.filter (fun e => e.1 != k1)).find? (fun e => e.1 == k2) =
      l.find? (fun e => e.1 == k2) := by
  induction l with
  | nil => rfl
  | cons a t ih =>
    have hk12 : (k1 == k2) = false := by
      simp
      exact fun hc => h hc.symm
    by_cases ha : a.1 = k1
    · simp [List.filter_cons, ha, List.find?_cons, hk12, ih]
    · by_cases hb : a.1 = k2
      · simp [List.filter_cons, ha, List.find?_cons, hb, h]
      · simp [List.filter_cons, ha, List.find?_cons, hb, ih]

theorem filter_of_find?_none (l : List (String × String)) (k : String)
    (h : l.find? (fun e => e.1 == k) = none) :
    l.filter (fun e => e.1 != k) = l := by
  have h' := List.find?_eq_none.mp h
  apply List.filter_eq_self.mpr
  intro a ha
  have hne := h' a ha
  simp at hne ⊢
  exact hne

/-! ### Operation-level lemmas -/

theorem get_insert_self (m : UnorderedMap) (k v : String) :
    (m.insert k v).get k = some v := by
  unfold UnorderedMap.insert UnorderedMap.get
  simp only []
  rw [List.find?_append, find?_filter_out]
  simp [List.find?_cons]

theorem get_insert_other (m : UnorderedMap) (k1 v k2 : String) (h : k2 ≠ k1) :
    (m.insert k1 v).get k2 = m.get k2 := by
  unfold UnorderedMap.insert UnorderedMap.get
  simp only []
  rw [List.find?_append, find?_filter_other m.entries k1 k2 h]
  cases hf : m.entries.find? (fun e => e.1 == k2) with
  | none =>
    have : (k1 == k2) = false := by
      simp
      exact fun hc => h hc.symm
    simp [List.find?_cons, this]
  | some e => simp

theorem get_remove_self (m : UnorderedMap) (k : String) :
    (m.remove k).get k = none := by
  unfold UnorderedMap.remove UnorderedMap.get
  simp only []
  rw [find?_filter_out]
  rfl

theorem get_remove_other (m : UnorderedMap) (k1 k2 : String) (h : k2 ≠ k1) :
    (m.remove k1).get k2 = m.get k2 := by
  unfold UnorderedMap.remove UnorderedMap.get
  simp only []
  rw [find?_filter_other m.entries k1 k2 h]

theorem remove_absent (m : UnorderedMap) (k : String) (h : m.get k = none) :
    m.remove k = m := by
  unfold UnorderedMap.get at h
  have h' : m.entries.find? (fun e => e.1 == k) = none := by
    cases hf : m.entries.find? (fun e => e.1 == k) with
    | none => rfl
    | some e => rw [hf] at h; simp at h
  unfold UnorderedMap.remove
  rw [filter_of_find?_none m.entries k h']

theorem insert_insert_same (m : UnorderedMap) (k v : String) :
    (m.insert k v).insert k v = m.insert k v := by
  unfold UnorderedMap.insert
  simp [List.filter_append, List.filter_filter]

/-! ### Call-trace lemmas -/

theorem read_stepCall (kv : KeyValue) (c : Call) (k : String) :
    ((stepCall kv c).read k).1 = readEffect k ((kv.read k).1) c := by
  cases c with
  | createUpdate k' v =>
    by_cases h : k' = k
    · subst h
      simp [stepCall, KeyValue.create_update, KeyValue.read, readEffect,
        get_insert_self]
    · have h' : k ≠ k' := fun hc => h hc.symm
      simp [stepCall, KeyValue.create_update, KeyValue.read, readEffect, h,
        get_insert_other kv.pairs k' v k h']
  | delete k' =>
    by_cases h : k' = k
    · subst h
      simp [stepCall, KeyValue.delete, KeyValue.read, readEffect,
        get_remove_self]
    · have h' : k ≠ k' := fun hc => h hc.symm
      simp [stepCall, KeyValue.delete, KeyValue.read, readEffect, h,
        get_remove_other kv.pairs k' k h']
  | readKey k' => simp [stepCall, readEffect]

theorem read_foldl_calls (calls : List Call) (kv : KeyValue) (k : String) :
    ((calls.foldl stepCall kv).read k).1 =
      calls.foldl (readEffect k) ((kv.read k).1) := by
  induction calls generalizing kv with
  | nil => rfl
  | cons c rest ih =>
    rw [List.foldl_cons, List.foldl_cons, ih, read_stepCall]

theorem isSome_foldl_readEffect (calls : List Call) (k : String)
    (acc : Option String) :
    (calls.foldl (readEffect k) acc).isSome =
      calls.foldl (liveEffect k) acc.isSome := by
  induction calls generalizing acc with
  | nil => rfl
  | cons c rest ih =>
    rw [List.foldl_cons, List.foldl_cons, ih]
    cases c with
    | createUpdate k' v =>
      by_cases h : k' == k <;> simp [readEffect, liveEffect, h]
    | delete k' =>
      by_cases h : k' == k <;> simp [readEffect, liveEffect, h]
    | readKey k' => rfl

/-! ### Claim theorems -/

/-- C1: For every map state and all strings `k` and `v`, calling
`create_update(k, v)` and then `read(k)` returns `Some(v)` — the value
round-trips through the persistent map. -/
theorem C1_create_update_read_roundtrip (kv : KeyValue) (k v : String) :
    (((kv.create_update k v).1).read k).1 = some v := by
  simp [KeyValue.create_update, KeyValue.read, get_insert_self]

/-- C2: For every map state, every key `k`, and all values `v1`, `v2`,
`create_update(k, v1)` then `create_update(k, v2)` then `read(k)` returns
`Some(v2)`: insert unconditionally overwrites and the last write wins. -/
theorem C2_last_write_wins (kv : KeyValue) (k v1 v2 : String) :
    ((((kv.create_update k v1).1).create_update k v2).1.read k).1 = some v2 := by
  simp [KeyValue.create_update, KeyValue.read, get_insert_self]

/-- C3: For every map state and all strings `k` and `v`, calling
`create_update(k, v)`, then `delete(k)`, then `read(k)` returns `None`. -/
theorem C3_create_delete_read_none (kv : KeyValue) (k v : String) :
    ((((kv.create_update k v).1).delete k).1.read k).1 = none := by
  simp [KeyValue.create_update, KeyValue.delete, KeyValue.read,
    get_remove_self]

/-- C4: For every key `k` that was never inserted, or was removed since its
last insert (`keyLive` is false on the call trace from the fresh
default-initialized state), `read(k)` returns `None` as a normal value of the
total function `read` — never an error.  In particular, on the fresh state
(`runCalls []`) every key reads `None`. -/
theorem C4_read_absent (calls : List Call) (k : String)
    (h : keyLive calls k = false) :
    ((runCalls calls).read k).1 = none := by
  have h1 : ((runCalls calls).read k).1 =
      calls.foldl (readEffect k) ((KeyValue.default.read k).1) :=
    read_foldl_calls calls KeyValue.default k
  have h2 : (KeyValue.default.read k).1 = none := rfl
  rw [h1, h2]
  have h3 := isSome_foldl_readEffect calls k none
  rw [Option.isSome_none] at h3
  have h4 : (calls.foldl (readEffect k) none).isSome = false := by
    rw [h3]
    exact h
  cases hx : calls.foldl (readEffect k) none with
  | none => rfl
  | some v => rw [hx] at h4; simp at h4

/-- Witness for C4 at the concrete trace
`create_update("a","1"); delete("a")` and key `"a"`. -/
theorem C4_read_absent_witness :
    keyLive [Call.createUpdate "a" "1", Call.delete "a"] "a" = false ∧
    ((runCalls [Call.createUpdate "a" "1", Call.delete "a"]).read "a").1 =
      none :=
  ⟨by decide, C4_read_absent [Call.createUpdate "a" "1", Call.delete "a"] "a"
    (by decide)⟩

/-- C5: For every map state and every key `k` absent from the map,
`delete(k)` succeeds and leaves the state unchanged — a no-op — so `read`
of any key `k'` afterwards gives the same result as before. -/
theorem C5_delete_absent_noop (kv : KeyValue) (k k' : String)
    (h : (kv.read k).1 = none) :
    (kv.delete k).1 = kv ∧ ((kv.delete k).1.read k').1 = (kv.read k').1 := by
  have hm : kv.pairs.get k = none := h
  have hr : kv.pairs.remove k = kv.pairs := remove_absent kv.pairs k hm
  constructor
  · simp [KeyValue.delete, hr]
  · simp [KeyValue.delete, KeyValue.read, hr]

/-- Witness for C5 on the fresh state at keys `"a"` and `"b"`. -/
theorem C5_delete_absent_noop_witness :
    (KeyValue.default.delete "a").1 = KeyValue.default ∧
    ((KeyValue.default.delete "a").1.read "b").1 =
      (KeyValue.default.read "b").1 :=
  C5_delete_absent_noop KeyValue.default "a" "b" rfl

/-- C6: For every map state, all strings `k1` and `v`, and every key `k2`
distinct from `k1`, `create_update(k1, v)` does not change `read(k2)`. -/
theorem C6_create_update_isolation (kv : KeyValue) (k1 v k2 : String)
    (h : k2 ≠ k1) :
    ((kv.create_update k1 v).1.read k2).1 = (kv.read k2).1 := by
  simp [KeyValue.create_update, KeyValue.read,
    get_insert_other kv.pairs k1 v k2 h]

/-- Witness for C6 on the fresh state with `k1 = "a"`, `v = "x"`,
`k2 = "b"`. -/
theorem C6_create_update_isolation_witness :
    ((KeyValue.default.create_update "a" "x").1.read "b").1 =
      (KeyValue.default.read "b").1 :=
  C6_create_update_isolation KeyValue.default "a" "x" "b" (by decide)

/-- C7: `read` is side-effect free on the map: a read call leaves the
persisted state unchanged (the receiver is `&self` and read-only calls are
not persisted), so any subsequent `read(k')` returns what it would have
returned without the first read. -/
theorem C7_read_no_side_effect (kv : KeyValue) (k k' : String) :
    stepCall kv (Call.readKey k) = kv ∧
    ((stepCall kv (Call.readKey k)).read k').1 = (kv.read k').1 :=
  ⟨rfl, rfl⟩

/-- C8: `create_update` is idempotent: invoking it twice with the same
`k` and `v` yields the same observable map — the same `read(k')` result for
every key `k'` — as invoking it once (in fact the same state). -/
theorem C8_create_update_idempotent (kv : KeyValue) (k v k' : String) :
    (((kv.create_update k v).1.create_update k v).1.read k').1 =
      ((kv.create_update k v).1.read k').1 := by
  simp only [KeyValue.create_update, KeyValue.read]
  rw [insert_insert_same]

/-- C9: The empty string is a valid key and a valid value, and keys are
matched byte-exactly with no case normalization: `create_update("", v)` then
`read("")` gives `Some(v)`; storing under `"e"` the empty value reads back
`Some("")`; and the distinct keys `"key"` and `"KEY"` behave as any pair of
distinct keys, each retaining its own value. -/
theorem C9_edge_case_keys (kv : KeyValue) (v v1 v2 : String) :
    ((kv.create_update "" v).1.read "").1 = some v ∧
    ((kv.create_update "e" "").1.read "e").1 = some "" ∧
    (((kv.create_update "key" v1).1.create_update "KEY" v2).1.read "key").1 =
      some v1 ∧
    (((kv.create_update "key" v1).1.create_update "KEY" v2).1.read "KEY").1 =
      some v2 := by
  refine ⟨?_, ?_, ?_, ?_⟩
  · simp [KeyValue.create_update, KeyValue.read, get_insert_self]
  · simp [KeyValue.create_update, KeyValue.read, get_insert_self]
  · simp only [KeyValue.create_update, KeyValue.read]
    rw [get_insert_other _ "KEY" v2 "key" (by decide), get_insert_self]
  · simp [KeyValue.create_update, KeyValue.read, get_insert_self]

/-- C10: `create_update` calls on distinct keys commute: for distinct `k1`
and `k2`, performing `create_update(k1, v1)` then `create_update(k2, v2)`
yields the same `read(k)` result for every key `k` as the opposite order. -/
theorem C10_create_update_commute (kv : KeyValue) (k1 k2 v1 v2 k : String)
    (h : k1 ≠ k2) :
    (((kv.create_update k1 v1).1.create_update k2 v2).1.read k).1 =
      (((kv.create_update k2 v2).1.create_update k1 v1).1.read k).1 := by
  simp only [KeyValue.create_update, KeyValue.read]
  by_cases h1 : k = k1
  · subst h1
    rw [get_insert_other _ k2 v2 k h, get_insert_self, get_insert_self]
  · by_cases h2 : k = k2
    · subst h2
      rw [get_insert_self, get_insert_other _ k1 v1 k (fun hc => h hc.symm),
        get_insert_self]
    · rw [get_insert_other _ k2 v2 k h2, get_insert_other _ k1 v1 k h1,
        get_insert_other _ k1 v1 k h1, get_insert_other _ k2 v2 k h2]

/-- Witness for C10 on the fresh state with keys `"a"` and `"b"`, values
`"1"` and `"2"`, observed at key `"a"`. -/
theorem C10_create_update_commute_witness :
    (((KeyValue.default.create_update "a" "1").1.create_update "b" "2").1.read
        "a").1 =
      (((KeyValue.default.create_update "b" "2").1.create_update "a"
          "1").1.read "a").1 :=
  C10_create_update_commute KeyValue.default "a" "b" "1" "2" "a" (by decide)
